import Mathlib

/-!
Shallow embedding of `src/lib/spindrift/packager.py` (spindrift packager).

Modelling conventions:
* Python strings are `List Char` (`PyStr`); file contents are also `List Char`
  (`Content`).
* A filesystem path inside the staging tree is a list of components (`FPath`);
  the staging tree is an association list from paths to contents (`STree`),
  where a write prepends the new entry and removes any older entry for the
  same path (open-for-write truncates).
* External state (the installed-package index, the lambda-packages store, the
  pip and spindrift wheel caches, tar/zip archive contents, the PyPI registry
  and the local filesystem) is a `World` record; functions that mutate it
  thread a `St` value (staging tree plus world).
* Python exceptions are modelled with `Except Err`; each `Err` constructor
  names one raise site (or runtime error site) of the source.
* Unbounded recursion (`find_dependencies`, which has no memoization) is
  modelled with an explicit fuel parameter; `none` means the computation did
  not complete within the given recursion depth.
-/

abbrev PyStr := List Char

abbrev Content := List Char

abbrev FPath := List PyStr

abbrev STree := List (FPath × Content)

/-- Python `str.split(sep)` for a one-character separator. -/
def splitOnChar (c : Char) : List Char → List (List Char)
  | [] => [[]]
  | x :: xs =>
    let r := splitOnChar c xs
    if x = c then [] :: r
    else
      match r with
      | [] => [[x]]
      | h :: t => (x :: h) :: t

/-- Python `str.strip()`: whitespace removed from both ends. -/
def pyStrip (l : List Char) : List Char :=
  ((l.dropWhile Char.isWhitespace).reverse.dropWhile Char.isWhitespace).reverse

/-- Fuel-indexed glob matcher: literal characters, `?` (any one character) and
`*` (any run of characters, `/` included), as `fnmatch.fnmatch` behaves on the
patterns used by this program (no bracket classes occur in `IGNORED`).  Each
step shortens the pattern or the string, so `pattern.length + string.length + 1`
fuel always suffices. -/
def globMatchF : Nat → List Char → List Char → Bool
  | 0, _, _ => false
  | n + 1, p, s =>
    match p with
    | [] => s.isEmpty
    | '*' :: ps =>
      globMatchF n ps s ||
        (match s with
         | [] => false
         | _ :: s' => globMatchF n ('*' :: ps) s')
    | '?' :: ps =>
      (match s with
       | [] => false
       | _ :: s' => globMatchF n ps s')
    | c :: ps =>
      match s with
      | [] => false
      | c' :: s' => c == c' && globMatchF n ps s'

/-- Python `fnmatch.fnmatch(name, pattern)` (posix: no case folding). -/
def fnmatch (nameArg pattern : List Char) : Bool :=
  globMatchF (pattern.length + nameArg.length + 1) pattern nameArg

/-- Write a file into the staging tree: the new entry replaces any previous
entry at the same path (mode "w"/extraction overwrite semantics). -/
def writeFile (t : STree) (p : FPath) (c : Content) : STree :=
  (p, c) :: t.filter (fun e => e.1 ≠ p)

/-- Python dict insertion (`d[k] = v`): the new binding shadows an older one. -/
def dictInsert {α : Type} (d : List (PyStr × α)) (k : PyStr) (v : α) : List (PyStr × α) :=
  (k, v) :: d.filter (fun e => e.1 ≠ k)

/-- Python `os.path.join(a, b)` on posix for a relative second component. -/
def pathJoin (a b : PyStr) : PyStr := a ++ '/' :: b

/-- Zip/tar member names are strings with `/` separators; turn one into
staging-tree path components. -/
def splitPath (n : PyStr) : FPath := splitOnChar '/' n

/-- Components of a relative path joined with `/`, as the string the path
denotes. -/
def pathStr : FPath → PyStr
  | [] => []
  | [c] => c
  | c :: rest => c ++ '/' :: pathStr rest

/-- Source line 18: the fixed target runtime identifier. -/
def RUNTIME : PyStr := "python3.6".toList

/-- Source lines 21-28: the fixed ignore-pattern set. -/
def IGNORED : List PyStr :=
  ["__pycache__".toList, ".git".toList,
   "__pycache__/*".toList, ".git/*".toList,
   "*/__pycache__/*".toList, "*/.git/*".toList]

/-- Source lines 238-244: the expected wheel filename suffix per runtime. -/
def _get_wheel_suffix (runtime : PyStr) : PyStr :=
  if runtime = "python2.7".toList then "cp27mu-manylinux1_x86_64.whl".toList
  else "cp36m-manylinux1_x86_64.whl".toList

/-- A `pkg_resources` distribution as the packager consumes it: canonical
lowercased key, version string, install location path, `egg_name()` result and
the keys of its declared requirements. -/
structure Dependency where
  key : PyStr
  version : PyStr
  location : PyStr
  egg_name : PyStr
  requires : List PyStr
deriving DecidableEq, Repr

/-- One `lambda_packages[name][runtime]` record: pinned version and path of
the gzipped tar archive. -/
structure LambdaPkgInfo where
  version : PyStr
  path : PyStr
deriving DecidableEq, Repr

/-- One artifact entry of a PyPI release listing (only the URL is consulted). -/
structure ReleaseInfo where
  url : PyStr
deriving DecidableEq, Repr

/-- Body of a 2xx `GET /pypi/{name}/json` response: the `releases` mapping from
version string to artifact list. -/
structure PyPiData where
  releases : List (PyStr × List ReleaseInfo)
deriving DecidableEq, Repr

/-- External state the packager reads and writes.  Caches are `none` when the
directory does not exist, otherwise the list of (file basename, full path)
pairs a recursive walk yields.  `pypi` holds the names whose metadata request
answers 2xx; `urlContent` the artifact URLs whose download answers 2xx, with
the zip members of the downloaded wheel. -/
structure World where
  working_set : List (PyStr × Dependency)
  lambda_packages : List (PyStr × List (PyStr × LambdaPkgInfo))
  tarArchives : List (PyStr × List (PyStr × Content))
  pipCache : Option (List (PyStr × PyStr))
  fakeCache : Option (List (PyStr × PyStr))
  zipArchives : List (PyStr × List (PyStr × Content))
  pypi : List (PyStr × PyPiData)
  urlContent : List (PyStr × List (PyStr × Content))
  fsFiles : List (PyStr × Content)
  fsDirs : List PyStr
deriving DecidableEq, Repr

/-- Staging tree plus external world, threaded through the installers. -/
structure St where
  tree : STree
  world : World
deriving DecidableEq, Repr

/-- Error outcomes; one constructor per raise site (or per runtime error the
source actually produces). -/
inductive Err where
  /-- Line 153: `tf.members()` calls a list attribute, a `TypeError`. -/
  | typeErrorMembersCall : Err
  /-- Line 524: `raise NotImplemented()` calls the non-callable
  `NotImplemented` constant, a `TypeError`. -/
  | typeErrorNotImplementedCall : Err
  /-- A missing dict or zip-manifest key (`KeyError`). -/
  | keyError : PyStr → Err
  /-- Opening an archive path that does not exist. -/
  | fileNotFound : PyStr → Err
  /-- `res.raise_for_status()` on a non-2xx response (`requests.HTTPError`). -/
  | registryError : Err
  /-- `zipfile.ZipFile` on something that is not a zip file (the embedded-egg
  branch passes the directory itself). -/
  | badZipFile : Err
  /-- Line 301: local install location is a file but not an `.egg`. -/
  | unableLocalFile : PyStr → Err
  /-- Line 315: `top_level.txt` was not found. -/
  | topLevelMissing : PyStr → Err
  /-- Line 343: location is neither a file nor a directory. -/
  | neitherFileNorDir : PyStr → Err
  /-- Line 130: no strategy succeeded for `name==version`. -/
  | noSuitableArtifact : PyStr → PyStr → Err
deriving DecidableEq, Repr

def isFile (w : World) (p : PyStr) : Bool := (w.fsFiles.lookup p).isSome

def isDir (w : World) (p : PyStr) : Bool := w.fsDirs.contains p

/-- Extract every member of a zip archive into the staging tree
(`zf.extractall(path)`). -/
def extractAllZip (t : STree) (members : List (PyStr × Content)) : STree :=
  members.foldl (fun t m => writeFile t (splitPath m.1) m.2) t

/-- Source lines 79-90 (`find_dependencies`), with explicit recursion fuel:
look the package up in the working set, recurse into every declared
requirement, and deduplicate the concatenation.  `none` means the recursion
did not complete within `fuel` nested calls — the source has no memoization,
so a requirement cycle recurses forever (a `RecursionError` at runtime).
`list(set(ret))` deduplicates by object identity; `by_key` returns the same
object for the same key, so value-level `dedup` is faithful. -/
def find_dependencies_list (f : PyStr → Option (Except Err (List Dependency))) :
    List PyStr → Option (Except Err (List Dependency))
  | [] => some (.ok [])
  | r :: rs =>
    match f r with
    | none => none
    | some (.error e) => some (.error e)
    | some (.ok ds) =>
      match find_dependencies_list f rs with
      | none => none
      | some (.error e) => some (.error e)
      | some (.ok ds2) => some (.ok (ds ++ ds2))

def find_dependencies (ws : List (PyStr × Dependency)) :
    Nat → PyStr → Option (Except Err (List Dependency))
  | 0, _ => none
  | fuel + 1, package_name =>
    match ws.lookup package_name with
    | none => some (.error (.keyError package_name))
    | some package =>
      match find_dependencies_list (find_dependencies ws fuel) package.requires with
      | none => none
      | some (.error e) => some (.error e)
      | some (.ok deps) => some (.ok ((package :: deps).dedup))

/-- Source lines 138-157 (`_install_precompiled_version`).  Note lines
152-154: `tarfile.TarFile.members` is a list attribute, so `tf.members()`
raises `TypeError: 'list' object is not callable` — whenever a store entry is
selected, nothing is ever extracted and the call fails. -/
def _install_precompiled_version (s : St) (dep : Dependency) (check_version : Bool) :
    Except Err (Bool × St) :=
  let w := s.world
  match w.lambda_packages.lookup dep.key with
  | none => .ok (false, s)
  | some runtimes =>
    match runtimes.lookup RUNTIME with
    | none => .error (.keyError RUNTIME)
    | some package =>
      if check_version ∧ package.version ≠ dep.version then .ok (false, s)
      else
        match w.tarArchives.lookup package.path with
        | none => .error (.fileNotFound package.path)
        | some _ => .error .typeErrorMembersCall

/-- Source lines 134-135. -/
def install_matching_precompiled_version (s : St) (dep : Dependency) :
    Except Err (Bool × St) :=
  _install_precompiled_version s dep true

/-- Source lines 291-292. -/
def install_any_precompiled_version (s : St) (dep : Dependency) :
    Except Err (Bool × St) :=
  _install_precompiled_version s dep false

/-- Source lines 279-288 (`load_cached_wheels`): walk the cache directory and
keep files whose name ends in `.whl`, keyed by basename (later walk entries
overwrite earlier ones, as repeated dict assignment does). -/
def load_cached_wheels (entries : List (PyStr × PyStr)) : List (PyStr × PyStr) :=
  entries.foldl
    (fun d e => if ".whl".toList.isSuffixOf e.1 then dictInsert d e.1 e.2 else d) []

/-- Source lines 247-276 (`_install_manylinux_version_from_cache`). -/
def _install_manylinux_version_from_cache (cache : Option (List (PyStr × PyStr)))
    (s : St) (dep : Dependency) : Except Err (Bool × St) :=
  match cache with
  | none => .ok (false, s)
  | some entries =>
    let available_wheels := load_cached_wheels entries
    let suffix := _get_wheel_suffix RUNTIME
    let wheel_name := dep.key ++ '-' :: dep.version ++ '-' :: suffix
    match available_wheels.lookup wheel_name with
    | none => .ok (false, s)
    | some wheel_path =>
      match s.world.zipArchives.lookup wheel_path with
      | none => .error (.fileNotFound wheel_path)
      | some members => .ok (true, ⟨extractAllZip s.tree members, s.world⟩)

/-- Source lines 160-180 (`install_manylinux_version`): try the pip wheel
cache, then the private (fake) cache. -/
def install_manylinux_version (s : St) (dep : Dependency) : Except Err (Bool × St) :=
  match _install_manylinux_version_from_cache s.world.pipCache s dep with
  | .error e => .error e
  | .ok (true, s') => .ok (true, s')
  | .ok (false, s') => _install_manylinux_version_from_cache s'.world.fakeCache s' dep

/-- Source lines 183-184: the private cache directory path
(`tempfile.gettempdir()` modelled as `/tmp`). -/
def _get_fake_cache_path : PyStr := "/tmp/spindrift_cache".toList

/-- Source lines 187-235 (`download_and_install_manylinux_version`): create
the private cache directory if absent, fetch the PyPI metadata
(`raise_for_status` turns a non-2xx answer into a fatal `HTTPError`), report
not-found when the version is unlisted or no artifact URL ends with the
platform suffix, otherwise download the wheel into the private cache and
extract it. -/
def download_and_install_manylinux_version (s : St) (dep : Dependency) :
    Except Err (Bool × St) :=
  let w := s.world
  let w :=
    match w.fakeCache with
    | none => { w with fakeCache := some [] }
    | some _ => w
  match w.pypi.lookup dep.key with
  | none => .error .registryError
  | some data =>
    let wheel_suffix := _get_wheel_suffix RUNTIME
    match data.releases.lookup dep.version with
    | none => .ok (false, ⟨s.tree, w⟩)
    | some infos =>
      match infos.find? (fun info => wheel_suffix.isSuffixOf info.url) with
      | none => .ok (false, ⟨s.tree, w⟩)
      | some info =>
        let wheel_name := dep.key ++ '-' :: dep.version ++ '-' :: wheel_suffix
        let wheel_path := pathJoin _get_fake_cache_path wheel_name
        match w.urlContent.lookup info.url with
        | none => .error .registryError
        | some members =>
          let cacheEntries := (w.fakeCache.getD [])
          let w := { w with
            fakeCache := some (dictInsert cacheEntries wheel_name wheel_path),
            zipArchives := dictInsert w.zipArchives wheel_path members }
          .ok (true, ⟨extractAllZip s.tree members, w⟩)

/-- Parse a `top_level.txt` body: split on newlines, strip, drop blanks
(source lines 318-327 and 356-363 do this identically). -/
def parseTopLevelLines (data : Content) : List PyStr :=
  ((splitOnChar '\n' data).map pyStrip).filter (fun l => l ≠ [])

/-- One step of the member-selection loop of source lines 376-395: a member
matching an ignore pattern is skipped; a non-`.py` member is appended; a
member is (also) appended when no `{member}c` sibling is among the
candidates.  (A non-`.py` member with no `c`-sibling is appended twice, as in
the source; extraction twice is extraction once.) -/
def egg_step (maybe_names_to_copy : List PyStr) (acc : List PyStr) (n : PyStr) :
    List PyStr :=
  if IGNORED.any (fun ignored => fnmatch n ignored) then acc
  else
    let acc := if ¬ (".py".toList.isSuffixOf n) then acc ++ [n] else acc
    if ¬ (n ++ ['c']) ∈ maybe_names_to_copy then acc ++ [n] else acc

/-- The per-top-level-name body of source lines 368-400: gather the members
below `folder`, select with `egg_step`, then
`zf.extractall(os.path.join(path, folder), names_to_copy)` — each selected
member `n` lands at `folder :: splitPath n`, i.e. below `{staging}/{folder}`
with its full member name appended, so a member named `folder/x` lands at
`folder/folder/x`. -/
def egg_install_folder (members : List (PyStr × Content)) (t : STree)
    (folder : PyStr) : STree :=
  let all_names := members.map Prod.fst
  let maybe_names_to_copy := all_names.filter (fun n => (folder ++ ['/']).isPrefixOf n)
  let names_to_copy := maybe_names_to_copy.foldl (egg_step maybe_names_to_copy) []
  names_to_copy.foldl (fun t n =>
    match members.lookup n with
    | some c => writeFile t (folder :: splitPath n) c
    | none => t) t

/-- Source lines 350-404 (`install_local_package_from_egg`): open the egg zip
at `dependency.location`, read the `EGG-INFO/top_level.txt` manifest, and run
`egg_install_folder` for each listed top-level name. -/
def install_local_package_from_egg (s : St) (dep : Dependency) :
    Except Err (Bool × St) :=
  match s.world.zipArchives.lookup dep.location with
  | none => .error .badZipFile
  | some members =>
    match members.lookup "EGG-INFO/top_level.txt".toList with
    | none => .error (.keyError "EGG-INFO/top_level.txt".toList)
    | some data =>
      let to_copy := parseTopLevelLines data
      let tree := to_copy.foldl (egg_install_folder members) s.tree
      .ok (true, ⟨tree, s.world⟩)

/-- Source lines 407-450 (`_locate_top_level`): the candidate manifest
folders, in priority order, and the first existing `top_level.txt` below one
of them. -/
def _locate_top_level (w : World) (dep : Dependency) : Option PyStr :=
  let paths_to_try :=
    if ".egg".toList.isSuffixOf dep.location then
      [pathJoin dep.location "EGG-INFO".toList]
    else
      [pathJoin dep.location (dep.key ++ ".egg-info".toList),
       pathJoin (pathJoin dep.location (dep.egg_name ++ ".egg".toList)) "EGG-INFO".toList,
       pathJoin dep.location (dep.key ++ '-' :: dep.version ++ ".dist-info".toList)]
  (paths_to_try.map (fun p => pathJoin p "top_level.txt".toList)).find? (fun p => isFile w p)

/-- Files the `shutil.copytree(src, dst, ignore=ignore_patterns(*IGNORED))`
call copies, as paths relative to `src`: every filesystem file below `src`
none of whose relative-path components matches an ignore pattern
(`ignore_patterns` filters each directory listing by basename, which is
exactly a per-component filter). -/
def copytree_files (w : World) (src : PyStr) : List (FPath × Content) :=
  w.fsFiles.filterMap (fun e =>
    if (src ++ ['/']).isPrefixOf e.1 then
      let rel := splitPath (e.1.drop (src.length + 1))
      if rel.all (fun comp => ¬ IGNORED.any (fun ignored => fnmatch comp ignored)) then
        some (rel, e.2)
      else none
    else none)

/-- Stage one `copytree(location/folder, path/folder)` call of source lines
330-340. -/
def stageCopytree (w : World) (t : STree) (location folder : PyStr) : STree :=
  (copytree_files w (pathJoin location folder)).foldl
    (fun t e => writeFile t (folder :: e.1) e.2) t

/-- Source lines 295-347 (`install_local_package`). Note line 311: for an egg
file embedded in a directory location, `install_local_package_from_egg` opens
`zipfile.ZipFile(dependency.location)` on the directory itself, which fails. -/
def install_local_package (s : St) (dep : Dependency) : Except Err (Bool × St) :=
  if isFile s.world dep.location then
    if ".egg".toList.isSuffixOf dep.location then
      install_local_package_from_egg s dep
    else .error (.unableLocalFile dep.key)
  else if isDir s.world dep.location then
    let egg_zip_path := pathJoin dep.location (dep.egg_name ++ ".egg".toList)
    if isFile s.world egg_zip_path then
      install_local_package_from_egg s dep
    else
      match _locate_top_level s.world dep with
      | none => .error (.topLevelMissing dep.key)
      | some top_level_path =>
        match s.world.fsFiles.lookup top_level_path with
        | none => .error (.fileNotFound top_level_path)
        | some data =>
          let to_copy := parseTopLevelLines data
          let tree := to_copy.foldl
            (fun t folder => stageCopytree s.world t dep.location folder) s.tree
          .ok (true, ⟨tree, s.world⟩)
  else .error (.neitherFileNorDir dep.key)

/-- The per-dependency body of the loop of source lines 96-131: the five
acquisition attempts in order, stopping at the first that reports success;
the final raise names the dependency key and version. -/
def install_one (s : St) (dep : Dependency) : Except Err St :=
  match install_matching_precompiled_version s dep with
  | .error e => .error e
  | .ok (true, s) => .ok s
  | .ok (false, s) =>
    match install_manylinux_version s dep with
    | .error e => .error e
    | .ok (true, s) => .ok s
    | .ok (false, s) =>
      match download_and_install_manylinux_version s dep with
      | .error e => .error e
      | .ok (true, s) => .ok s
      | .ok (false, s) =>
        match install_any_precompiled_version s dep with
        | .error e => .error e
        | .ok (true, s) => .ok s
        | .ok (false, s) =>
          match install_local_package s dep with
          | .error e => .error e
          | .ok (true, s) => .ok s
          | .ok (false, _) => .error (.noSuitableArtifact dep.key dep.version)

/-- Source lines 93-131 (`install_dependencies`): loop over the dependency
list, skipping the root package itself. -/
def install_dependencies (s : St) (package : PyStr) :
    List Dependency → Except Err St
  | [] => .ok s
  | dep :: rest =>
    if dep.key = package then install_dependencies s package rest
    else
      match install_one s dep with
      | .error e => .error e
      | .ok s' => install_dependencies s' package rest

/-- Source lines 453-458 (`install_project`). -/
def install_project (s : St) (nameArg : PyStr) : Except Err (Bool × St) :=
  match s.world.working_set.lookup nameArg with
  | none => .error (.keyError nameArg)
  | some package => install_local_package s package

/-- Source lines 461-464 (`compile_files`): `compileall.compile_dir` compiles
each `.py` file into `{dir}/__pycache__/{base}.cpython-36.pyc`; a file that
fails to compile is skipped, never fatal.  The bytecode compiler itself is a
parameter (`none` models a syntax error). -/
def compile_files (compileFn : Content → Option Content) (t : STree) : STree :=
  t.foldl (fun acc e =>
    match e.1.getLast? with
    | none => acc
    | some base =>
      if ".py".toList.isSuffixOf base then
        match compileFn e.2 with
        | none => acc
        | some bc =>
          writeFile acc
            (e.1.dropLast ++
              ["__pycache__".toList, base.take (base.length - 3) ++ ".cpython-36.pyc".toList])
            bc
      else acc) t

def isPyFile (p : FPath) : Bool :=
  match p.getLast? with
  | some base => ".py".toList.isSuffixOf base
  | none => false

/-- The path of `py_file + "c"`, the sibling the pruner checks for. -/
def pycSibling (p : FPath) : FPath :=
  p.dropLast ++ [(p.getLast?.getD []) ++ ['c']]

/-- Source lines 467-492 (`prune_python_files`): remove every `__pycache__`
directory (with everything below it), then delete each remaining `.py` file
whose `{file}c` sibling exists. -/
def prune_python_files (t : STree) : STree :=
  let after := t.filter (fun e => ¬ "__pycache__".toList ∈ e.1.dropLast)
  after.filter (fun e =>
    ¬ (isPyFile e.1 ∧ after.any (fun e2 => e2.1 = pycSibling e.1)))

/-- Source lines 495-499 (`insert_shim`): write the entry text to `index.py`
at the staging-tree root, truncating any existing file. -/
def insert_shim (t : STree) (entry : Content) : STree :=
  writeFile t ["index.py".toList] entry

/-- Source lines 49-64 (`populate_directory`): dependencies, then the project
itself, then compile, prune, and finally the shim. -/
def populate_directory (s : St) (package : PyStr) (entry : Content)
    (dependencies : List Dependency) (compileFn : Content → Option Content) :
    Except Err St :=
  match install_dependencies s package dependencies with
  | .error e => .error e
  | .ok s =>
    match install_project s package with
    | .error e => .error e
    | .ok (_, s) =>
      let t := compile_files compileFn s.tree
      let t := prune_python_files t
      let t := insert_shim t entry
      .ok ⟨t, s.world⟩

/-- Python `str.lstrip(os.sep)` on posix: strip every leading `/`. -/
def lstripSlash : List Char → List Char
  | [] => []
  | a :: r => if a = '/' then lstripSlash r else a :: r

/-- The absolute path `os.walk`/`os.path.join` produce for a staged file:
the walk root joined with each component in turn. -/
def joinRoot (root : PyStr) (p : FPath) : PyStr :=
  p.foldl (fun a c => a ++ '/' :: c) root

/-- Source lines 502-518 (`create_zip_bundle`): one archive entry per regular
file; the entry name is the file's absolute path with the staging-root prefix
sliced off and leading separators stripped; the entry body is the file's
bytes.  No directory entries are written. -/
def create_zip_bundle (root : PyStr) (t : STree) : List (PyStr × Content) :=
  t.map (fun e =>
    let real_file_path := joinRoot root e.1
    let truncated := lstripSlash (real_file_path.drop root.length)
    (truncated, e.2))

/-- Source lines 521-526 (`output_zip_bundle`): an `s3://` destination hits
`raise NotImplemented()` — which is a `TypeError`, since `NotImplemented` is
not callable — and nothing is written; any other destination string is
treated as a local path and receives a copy of the archive. -/
def output_zip_bundle (fs : List (PyStr × Content)) (zipContent : Content)
    (destination : PyStr) : Except Err (List (PyStr × Content)) :=
  if "s3://".toList.isPrefixOf destination then .error .typeErrorNotImplementedCall
  else .ok (dictInsert fs destination zipContent)

/-! ## Theorems -/

instance exceptDecEq {ε α : Type} [DecidableEq ε] [DecidableEq α] :
    DecidableEq (Except ε α) := fun x y =>
  match x, y with
  | .error a, .error b =>
    if h : a = b then .isTrue (by rw [h])
    else .isFalse (fun hh => h (Except.error.inj hh))
  | .ok a, .ok b =>
    if h : a = b then .isTrue (by rw [h])
    else .isFalse (fun hh => h (Except.ok.inj hh))
  | .error _, .ok _ => .isFalse (fun hh => Except.noConfusion hh)
  | .ok _, .error _ => .isFalse (fun hh => Except.noConfusion hh)

/-- A successful association-list lookup exhibits a member of the list. -/
theorem lookup_mem {β : Type} {idx : List (PyStr × β)} {n : PyStr} {d : β}
    (h : List.lookup n idx = some d) : (n, d) ∈ idx := by
  induction idx with
  | nil => simp [List.lookup] at h
  | cons p rest ih =>
    obtain ⟨k, v⟩ := p
    simp only [List.lookup] at h
    cases hk : (n == k) with
    | false => rw [hk] at h; exact List.mem_cons_of_mem _ (ih h)
    | true =>
      rw [hk] at h
      injection h with h'
      subst h'
      have : n = k := eq_of_beq hk
      subst this
      exact List.mem_cons_self _ _

/-- Unfolding step for `find_dependencies` at positive fuel. -/
theorem find_dependencies_succ (ws : List (PyStr × Dependency)) (n : Nat) (nm : PyStr) :
    find_dependencies ws (n + 1) nm =
      match ws.lookup nm with
      | none => some (.error (.keyError nm))
      | some package =>
        match find_dependencies_list (find_dependencies ws n) package.requires with
        | none => none
        | some (.error e) => some (.error e)
        | some (.ok deps) => some (.ok ((package :: deps).dedup)) := rfl

/-- Unfolding step for `find_dependencies_list` at a cons cell. -/
theorem find_dependencies_list_cons (f : PyStr → Option (Except Err (List Dependency)))
    (r : PyStr) (rs : List PyStr) :
    find_dependencies_list f (r :: rs) =
      match f r with
      | none => none
      | some (.error e) => some (.error e)
      | some (.ok ds) =>
        match find_dependencies_list f rs with
        | none => none
        | some (.error e) => some (.error e)
        | some (.ok ds2) => some (.ok (ds ++ ds2)) := rfl

/-- A one-package index whose package requires itself: the smallest
requirement cycle. -/
def c1CycDep : Dependency :=
  { key := "a".toList, version := "1".toList, location := [], egg_name := [],
    requires := ["a".toList] }

def c1CycIdx : List (PyStr × Dependency) := [("a".toList, c1CycDep)]

theorem c1_cycle_none (fuel : Nat) :
    find_dependencies c1CycIdx fuel "a".toList = none := by
  induction fuel with
  | zero => rfl
  | succ n ih =>
    have hstep : find_dependencies c1CycIdx (n + 1) "a".toList =
        match find_dependencies_list (find_dependencies c1CycIdx n) ["a".toList] with
        | none => none
        | some (.error e) => some (.error e)
        | some (.ok deps) => some (.ok ((c1CycDep :: deps).dedup)) := rfl
    rw [hstep, find_dependencies_list_cons, ih]

/-- Claim C1, counterexample: on the one-package requirement cycle the graph
walk completes at no recursion depth — the source memoizes nothing, so the
recursion of lines 79-90 never returns on a cycle. -/
theorem find_dependencies_cycle_diverges :
    ¬ ∃ fuel res, find_dependencies c1CycIdx fuel "a".toList = some res := by
  rintro ⟨fuel, res, h⟩
  rw [c1_cycle_none fuel] at h
  exact Option.noConfusion h

/-- Claim C1, amended: on a dependency graph whose requirement relation
admits a decreasing rank (no requirement cycle reachable anywhere in the
index), the walk terminates — some recursion depth suffices — and returns a
list of distributions with pairwise distinct canonical names. -/
theorem find_dependencies_acyclic_nodup (idx : List (PyStr × Dependency))
    (nm : PyStr) (rank : PyStr → Nat)
    (hwf : ∀ p ∈ idx, (p.2).key = p.1)
    (hclosed : ∀ p ∈ idx, ∀ r ∈ (p.2).requires, (List.lookup r idx).isSome = true)
    (hrank : ∀ p ∈ idx, ∀ r ∈ (p.2).requires, rank r < rank p.1)
    (hroot : (List.lookup nm idx).isSome = true) :
    ∃ fuel l, find_dependencies idx fuel nm = some (.ok l) ∧
      (l.map Dependency.key).Nodup := by
  suffices main : ∀ fuel nm, rank nm < fuel → (List.lookup nm idx).isSome = true →
      ∃ l, find_dependencies idx fuel nm = some (.ok l) ∧
        (∀ d ∈ l, List.lookup d.key idx = some d) ∧ l.Nodup by
    obtain ⟨l, hl, hinv, hnd⟩ := main (rank nm + 1) nm (Nat.lt_succ_self _) hroot
    refine ⟨rank nm + 1, l, hl, ?_⟩
    refine hnd.map_on ?_
    intro x hx y hy hxy
    have hxl := hinv x hx
    have hyl := hinv y hy
    rw [hxy] at hxl
    rw [hxl] at hyl
    exact Option.some.inj hyl
  intro fuel
  induction fuel with
  | zero => intro nm hlt _; exact absurd hlt (Nat.not_lt_zero _)
  | succ n ih =>
    intro nm hlt hsome
    obtain ⟨pkg, hpkg⟩ := Option.isSome_iff_exists.mp hsome
    have hmem : (nm, pkg) ∈ idx := lookup_mem hpkg
    have hreq : ∀ r ∈ pkg.requires, rank r < rank nm := hrank _ hmem
    have hreqc : ∀ r ∈ pkg.requires, (List.lookup r idx).isSome = true := hclosed _ hmem
    have inner : ∀ rs, (∀ r ∈ rs, rank r < rank nm) →
        (∀ r ∈ rs, (List.lookup r idx).isSome = true) →
        ∃ ls, find_dependencies_list (find_dependencies idx n) rs = some (.ok ls) ∧
          ∀ d ∈ ls, List.lookup d.key idx = some d := by
      intro rs
      induction rs with
      | nil => intro _ _; exact ⟨[], rfl, by simp⟩
      | cons r rest ihr =>
        intro h1 h2
        have hrn : rank r < n :=
          Nat.lt_of_lt_of_le (h1 r (List.mem_cons_self _ _)) (Nat.lt_succ_iff.mp hlt)
        obtain ⟨dl, hdl, hdinv, _⟩ := ih r hrn (h2 r (List.mem_cons_self _ _))
        obtain ⟨ls, hls, hlinv⟩ :=
          ihr (fun r hr => h1 r (List.mem_cons_of_mem _ hr))
            (fun r hr => h2 r (List.mem_cons_of_mem _ hr))
        refine ⟨dl ++ ls, ?_, ?_⟩
        · rw [find_dependencies_list_cons, hdl, hls]
        · intro d hd
          rcases List.mem_append.mp hd with hd' | hd'
          · exact hdinv d hd'
          · exact hlinv d hd'
    obtain ⟨ls, hls, hlinv⟩ := inner pkg.requires hreq hreqc
    refine ⟨(pkg :: ls).dedup, ?_, ?_, List.nodup_dedup _⟩
    · have hstep : find_dependencies idx (n + 1) nm =
          match find_dependencies_list (find_dependencies idx n) pkg.requires with
          | none => none
          | some (.error e) => some (.error e)
          | some (.ok deps) => some (.ok ((pkg :: deps).dedup)) := by
        rw [find_dependencies_succ, hpkg]
      rw [hstep, hls]
    · intro d hd
      have hd' := List.mem_dedup.mp hd
      rcases List.mem_cons.mp hd' with rfl | hmem2
      · have : d.key = nm := hwf _ hmem
        rw [this]
        exact hpkg
      · exact hlinv d hmem2

/-- A two-package acyclic index for the witness. -/
def c1DepA : Dependency :=
  { key := "a".toList, version := "1".toList, location := [], egg_name := [],
    requires := ["b".toList] }

def c1DepB : Dependency :=
  { key := "b".toList, version := "2".toList, location := [], egg_name := [],
    requires := [] }

def c1Idx : List (PyStr × Dependency) :=
  [("a".toList, c1DepA), ("b".toList, c1DepB)]

def c1Rank (n : PyStr) : Nat := if n = "b".toList then 0 else 1

theorem find_dependencies_acyclic_nodup_witness :
    (∀ p ∈ c1Idx, (p.2).key = p.1) ∧
    (List.lookup "a".toList c1Idx).isSome = true ∧
    ∃ fuel l, find_dependencies c1Idx fuel "a".toList = some (.ok l) ∧
      (l.map Dependency.key).Nodup := by
  refine ⟨by decide, by decide, ?_⟩
  exact find_dependencies_acyclic_nodup c1Idx "a".toList c1Rank (by decide)
    (by decide) (by decide) (by decide)

/-- An empty external world, extended per concrete scenario. -/
def emptyWorld : World :=
  { working_set := [], lambda_packages := [], tarArchives := [], pipCache := none,
    fakeCache := none, zipArchives := [], pypi := [], urlContent := [],
    fsFiles := [], fsDirs := [] }

/-- C3 scenario: a dependency present in the bundled store at the exact
requested version for the target runtime, with the tar archive on disk. -/
def c3Dep : Dependency :=
  { key := "numpy".toList, version := "1.0".toList, location := [],
    egg_name := [], requires := [] }

def c3World : World :=
  { emptyWorld with
    lambda_packages :=
      [("numpy".toList, [(RUNTIME, ⟨"1.0".toList, "/lp/numpy.tar.gz".toList⟩)])],
    tarArchives := [("/lp/numpy.tar.gz".toList, [("numpy/x.py".toList, "z".toList)])] }

def c3WorldWrongVer : World :=
  { c3World with
    lambda_packages :=
      [("numpy".toList, [(RUNTIME, ⟨"0.9".toList, "/lp/numpy.tar.gz".toList⟩)])] }

/-- Claim C3: on an exact bundled-store match the strategy does not extract
and succeed — it fails with the `TypeError` of line 153 (`tf.members()` calls
the `TarFile.members` list attribute), so the claimed extraction never
happens; the not-found halves of the claim do hold: an absent name or a
version mismatch reports `False` and leaves the staging tree unchanged. -/
theorem install_matching_precompiled_members_bug :
    install_matching_precompiled_version ⟨[], c3World⟩ c3Dep =
      .error .typeErrorMembersCall ∧
    install_matching_precompiled_version ⟨[], emptyWorld⟩ c3Dep =
      .ok (false, ⟨[], emptyWorld⟩) ∧
    install_matching_precompiled_version ⟨[], c3WorldWrongVer⟩ c3Dep =
      .ok (false, ⟨[], c3WorldWrongVer⟩) := by
  decide

/-- C5 scenario: the spec's legacy bundle — manifest lists `pkg`, members are
`pkg/__init__.py`, `pkg/__init__.pyc` and `pkg/mod.py` (no compiled sibling
for `mod.py`). -/
def c5Dep : Dependency :=
  { key := "pkg".toList, version := "1.0".toList,
    location := "/site/pkg-1.0.egg".toList, egg_name := "pkg-1.0".toList,
    requires := [] }

def c5World : World :=
  { emptyWorld with
    fsFiles := [("/site/pkg-1.0.egg".toList, [])],
    zipArchives := [("/site/pkg-1.0.egg".toList,
      [("EGG-INFO/top_level.txt".toList, "pkg\n".toList),
       ("pkg/__init__.py".toList, "src1".toList),
       ("pkg/__init__.pyc".toList, "byte1".toList),
       ("pkg/mod.py".toList, "src2".toList)])] }

/-- Claim C5: member selection behaves as claimed (exactly the compiled
`__init__.pyc` and the compiled-unavailable `mod.py` are kept), but
`zf.extractall(os.path.join(path, folder), names)` places each member below
`{staging}/pkg` with its full `pkg/…` member name appended — the files land
at `pkg/pkg/__init__.pyc` and `pkg/pkg/mod.py`, not at the claimed relative
paths `pkg/__init__.pyc` and `pkg/mod.py`. -/
theorem egg_unpack_double_nesting :
    install_local_package ⟨[], c5World⟩ c5Dep =
      .ok (true,
        ⟨[(["pkg".toList, "pkg".toList, "mod.py".toList], "src2".toList),
          (["pkg".toList, "pkg".toList, "__init__.pyc".toList], "byte1".toList)],
         c5World⟩) := by
  decide

/-- Claim C9, counterexample: a `gs://` destination is a non-local scheme,
yet the sink does not signal anything — it treats the destination as a local
path and writes the archive there (only `s3://` is checked). -/
theorem output_zip_bundle_gs_counterexample :
    output_zip_bundle [] "zipdata".toList "gs://bucket/key".toList =
      .ok [("gs://bucket/key".toList, "zipdata".toList)] := by
  decide

/-- Claim C9, amended: a destination starting with `s3://` aborts at the
`raise NotImplemented()` site (in fact a `TypeError`, as `NotImplemented` is
not callable) and nothing is written; every other destination string —
non-local schemes included — is treated as a local path and receives a copy
of the archive. -/
theorem output_zip_bundle_spec (fs : List (PyStr × Content)) (z : Content)
    (dest : PyStr) :
    ("s3://".toList.isPrefixOf dest = true →
      output_zip_bundle fs z dest = .error .typeErrorNotImplementedCall) ∧
    ("s3://".toList.isPrefixOf dest = false →
      output_zip_bundle fs z dest = .ok (dictInsert fs dest z)) := by
  unfold output_zip_bundle
  constructor
  · intro h
    simp only [h]
    simp
  · intro h
    simp only [h]
    simp

theorem output_zip_bundle_spec_witness :
    ("s3://".toList.isPrefixOf "s3://bucket/key".toList = true ∧
      output_zip_bundle [] "z".toList "s3://bucket/key".toList =
        .error .typeErrorNotImplementedCall) ∧
    ("s3://".toList.isPrefixOf "/out/bundle.zip".toList = false ∧
      output_zip_bundle [] "z".toList "/out/bundle.zip".toList =
        .ok (dictInsert [] "/out/bundle.zip".toList "z".toList)) :=
  ⟨⟨by decide, (output_zip_bundle_spec [] "z".toList "s3://bucket/key".toList).1 (by decide)⟩,
   ⟨by decide, (output_zip_bundle_spec [] "z".toList "/out/bundle.zip".toList).2 (by decide)⟩⟩

/-- Claim C10: whenever `populate_directory` completes, the staging tree's
root `index.py` holds exactly the caller-supplied entry text — the shim is
written last, in truncating write mode, after dependency installation, root
installation, compilation and pruning. -/
theorem populate_directory_shim (s : St) (package : PyStr) (entry : Content)
    (deps : List Dependency) (compileFn : Content → Option Content) (s' : St)
    (h : populate_directory s package entry deps compileFn = .ok s') :
    List.lookup ["index.py".toList] s'.tree = some entry := by
  unfold populate_directory at h
  split at h
  · exact absurd h (by simp)
  · split at h
    · exact absurd h (by simp)
    · injection h with h'
      subst h'
      simp [insert_shim, writeFile, List.lookup]

/-- C10 scenario: the root project owns `app`; dependency `foo` arrives from
the pip wheel cache and its wheel stages a rogue root-level `index.py`. -/
def c10Root : Dependency :=
  { key := "root".toList, version := "0.1".toList, location := "/proj".toList,
    egg_name := "root-0.1".toList, requires := ["foo".toList] }

def c10Foo : Dependency :=
  { key := "foo".toList, version := "1.0".toList, location := "/nowhere".toList,
    egg_name := "foo-1.0".toList, requires := [] }

def c10World : World :=
  { emptyWorld with
    working_set := [("root".toList, c10Root)],
    pipCache := some [("foo-1.0-cp36m-manylinux1_x86_64.whl".toList, "/c/foo.whl".toList)],
    zipArchives := [("/c/foo.whl".toList,
      [("index.py".toList, "rogue".toList), ("foo/a.py".toList, "x".toList)])],
    fsDirs := ["/proj".toList],
    fsFiles := [("/proj/root.egg-info/top_level.txt".toList, "app\n".toList),
                ("/proj/app/__init__.py".toList, "code".toList)] }

def c10Result : St :=
  ⟨[(["index.py".toList], "ENTRY".toList),
    (["app".toList, "__init__.py".toList], "code".toList),
    (["foo".toList, "a.py".toList], "x".toList)], c10World⟩

theorem populate_directory_shim_witness :
    populate_directory ⟨[], c10World⟩ "root".toList "ENTRY".toList [c10Foo]
      (fun _ => none) = .ok c10Result ∧
    List.lookup ["index.py".toList] c10Result.tree = some "ENTRY".toList :=
  ⟨by decide,
   populate_directory_shim ⟨[], c10World⟩ "root".toList "ENTRY".toList [c10Foo]
     (fun _ => none) c10Result (by decide)⟩

/-- Zeta-expanded form of `prune_python_files`. -/
theorem prune_python_files_eq (t : STree) :
    prune_python_files t =
      (t.filter (fun e => ¬ "__pycache__".toList ∈ e.1.dropLast)).filter
        (fun e => ¬ (isPyFile e.1 ∧
          (t.filter (fun e2 => ¬ "__pycache__".toList ∈ e2.1.dropLast)).any
            (fun e2 => e2.1 = pycSibling e.1))) := rfl

theorem pycSibling_dropLast (p : FPath) :
    (pycSibling p).dropLast = p.dropLast := by
  unfold pycSibling
  exact List.dropLast_concat

/-- Claim C7: after pruning, every file below a `__pycache__` directory is
gone; every `.py` file with an existing `.pyc`-style sibling (`{file}c`) is
gone; every other file is still present with its content unchanged. -/
theorem prune_python_files_spec (t : STree) :
    (∀ e ∈ t, "__pycache__".toList ∈ e.1.dropLast → e ∉ prune_python_files t) ∧
    (∀ e ∈ t, isPyFile e.1 = true → (∃ c, (pycSibling e.1, c) ∈ t) →
      e ∉ prune_python_files t) ∧
    (∀ e ∈ t, "__pycache__".toList ∉ e.1.dropLast →
      ¬ (isPyFile e.1 = true ∧ ∃ c, (pycSibling e.1, c) ∈ t) →
      e ∈ prune_python_files t) := by
  refine ⟨?_, ?_, ?_⟩
  · intro e he hp hmem
    rw [prune_python_files_eq] at hmem
    have h1 := (List.mem_filter.mp hmem).1
    have h2 := (List.mem_filter.mp h1).2
    simp only [decide_eq_true_eq] at h2
    exact h2 hp
  · intro e he hpy hsib hmem
    obtain ⟨c, hc⟩ := hsib
    rw [prune_python_files_eq] at hmem
    obtain ⟨h1, h2⟩ := List.mem_filter.mp hmem
    have hnp := (List.mem_filter.mp h1).2
    simp only [decide_eq_true_eq] at h2 hnp
    apply h2
    refine ⟨hpy, ?_⟩
    rw [List.any_eq_true]
    refine ⟨(pycSibling e.1, c), ?_, ?_⟩
    · apply List.mem_filter.mpr
      refine ⟨hc, ?_⟩
      simp only [decide_eq_true_eq]
      rw [pycSibling_dropLast]
      exact hnp
    · simp
  · intro e he hnp hn
    rw [prune_python_files_eq]
    apply List.mem_filter.mpr
    refine ⟨List.mem_filter.mpr ⟨he, ?_⟩, ?_⟩
    · simp only [decide_eq_true_eq]
      exact hnp
    · simp only [decide_eq_true_eq]
      rintro ⟨hpy, hany⟩
      rw [List.any_eq_true] at hany
      obtain ⟨x, hx, hx2⟩ := hany
      simp only [decide_eq_true_eq] at hx2
      apply hn
      refine ⟨hpy, x.2, ?_⟩
      have hxt : x ∈ t := (List.mem_filter.mp hx).1
      rw [← hx2]
      exact hxt

/-- C7 scenario: the spec's round-trip tree, plus a `__pycache__` file. -/
def c7Tree : STree :=
  [(["a.py".toList], "s".toList), (["a.pyc".toList], "b".toList),
   (["b.data".toList], "d".toList),
   (["__pycache__".toList, "x".toList], "y".toList)]

theorem prune_python_files_spec_witness :
    ((["a.py".toList], "s".toList) ∉ prune_python_files c7Tree) ∧
    ((["__pycache__".toList, "x".toList], "y".toList) ∉ prune_python_files c7Tree) ∧
    ((["a.pyc".toList], "b".toList) ∈ prune_python_files c7Tree) ∧
    ((["b.data".toList], "d".toList) ∈ prune_python_files c7Tree) := by
  refine ⟨(prune_python_files_spec c7Tree).2.1 _ (by decide) (by decide)
            ⟨"b".toList, by decide⟩,
          (prune_python_files_spec c7Tree).1 _ (by decide) (by decide),
          (prune_python_files_spec c7Tree).2.2 _ (by decide) (by decide) ?_,
          (prune_python_files_spec c7Tree).2.2 _ (by decide) (by decide) ?_⟩
  · rintro ⟨hpy, -⟩
    exact absurd hpy (by decide)
  · rintro ⟨hpy, -⟩
    exact absurd hpy (by decide)

/-- The `/`-prefixed concatenation a left fold of `os.path.join` appends to
the walk root. -/
def slashConcat : FPath → PyStr
  | [] => []
  | c :: rest => '/' :: c ++ slashConcat rest

theorem joinRoot_eq (root : PyStr) (p : FPath) :
    joinRoot root p = root ++ slashConcat p := by
  induction p generalizing root with
  | nil => simp [joinRoot, slashConcat]
  | cons c rest ih =>
    have h1 : joinRoot root (c :: rest) = joinRoot (root ++ '/' :: c) rest := rfl
    rw [h1, ih, slashConcat, List.append_assoc]

theorem pathStr_cons (c : PyStr) (rest : FPath) :
    pathStr (c :: rest) = c ++ slashConcat rest := by
  induction rest generalizing c with
  | nil => simp [pathStr, slashConcat]
  | cons d rest' ih =>
    have h1 : pathStr (c :: d :: rest') = c ++ '/' :: pathStr (d :: rest') := rfl
    rw [h1, ih d]
    rfl

theorem lstripSlash_slashConcat (p : FPath)
    (h : ∀ comp ∈ p, comp ≠ [] ∧ '/' ∉ comp) :
    lstripSlash (slashConcat p) = pathStr p := by
  cases p with
  | nil => rfl
  | cons c rest =>
    obtain ⟨hne, hns⟩ := h c (List.mem_cons_self _ _)
    cases c with
    | nil => exact absurd rfl hne
    | cons ch c' =>
      have hch : ¬ ch = '/' := fun hh => hns (hh ▸ List.mem_cons_self _ _)
      have h1 : slashConcat ((ch :: c') :: rest) =
          '/' :: (ch :: (c' ++ slashConcat rest)) := rfl
      have h2 : lstripSlash ('/' :: (ch :: (c' ++ slashConcat rest))) =
          lstripSlash (ch :: (c' ++ slashConcat rest)) := by
        simp [lstripSlash]
      have h3 : lstripSlash (ch :: (c' ++ slashConcat rest)) =
          ch :: (c' ++ slashConcat rest) := by
        simp [lstripSlash, hch]
      rw [h1, h2, h3, pathStr_cons]
      rfl

/-- Claim C8: the archive holds exactly one entry per staged file (and
nothing else — in particular no directory entries), each entry named by the
file's path relative to the staging root with no leading separator, each
entry's bytes exactly the file's bytes.  The hypothesis states that the
staged paths are well-formed: nonempty, with nonempty separator-free
components. -/
theorem create_zip_bundle_spec (root : PyStr) (t : STree)
    (h : ∀ e ∈ t, e.1 ≠ [] ∧ ∀ comp ∈ e.1, comp ≠ [] ∧ '/' ∉ comp) :
    create_zip_bundle root t = t.map (fun e => (pathStr e.1, e.2)) ∧
    ∀ z ∈ create_zip_bundle root t, z.1.head? ≠ some '/' := by
  have hmain : create_zip_bundle root t = t.map (fun e => (pathStr e.1, e.2)) := by
    unfold create_zip_bundle
    apply List.map_congr_left
    intro e he
    dsimp only
    rw [joinRoot_eq, List.drop_left, lstripSlash_slashConcat e.1 (h e he).2]
  refine ⟨hmain, ?_⟩
  intro z hz
  rw [hmain] at hz
  obtain ⟨e, he, rfl⟩ := List.mem_map.mp hz
  obtain ⟨hne, hcomp⟩ := h e he
  obtain ⟨c, rest, he1⟩ : ∃ c rest, e.1 = c :: rest := by
    cases hx : e.1 with
    | nil => exact absurd hx hne
    | cons c r => exact ⟨c, r, rfl⟩
  have hcmem : c ∈ e.1 := by
    rw [he1]
    exact List.mem_cons_self _ _
  obtain ⟨hcne, hcns⟩ := hcomp c hcmem
  obtain ⟨ch, c', hc1⟩ : ∃ ch c', c = ch :: c' := by
    cases hx : c with
    | nil => exact absurd hx hcne
    | cons ch c' => exact ⟨ch, c', rfl⟩
  have hch : ¬ ch = '/' := fun hh => hcns (by
    rw [hc1, hh]
    exact List.mem_cons_self _ _)
  rw [he1, hc1, pathStr_cons]
  intro hh
  simp only [List.cons_append, List.head?_cons] at hh
  exact hch (Option.some.inj hh)

/-- C8 scenario: a one-file staging tree below an absolute root. -/
def c8Tree : STree := [(["pkg".toList, "a.py".toList], "x".toList)]

theorem create_zip_bundle_spec_witness :
    (∀ e ∈ c8Tree, e.1 ≠ [] ∧ ∀ comp ∈ e.1, comp ≠ [] ∧ '/' ∉ comp) ∧
    create_zip_bundle "/tmp/stage".toList c8Tree =
      c8Tree.map (fun e => (pathStr e.1, e.2)) :=
  ⟨by decide, (create_zip_bundle_spec "/tmp/stage".toList c8Tree (by decide)).1⟩

/-- A non-2xx metadata response (here: a name the registry does not answer
2xx for) aborts the download strategy with the fatal registry error. -/
theorem download_404 (s : St) (dep : Dependency)
    (h : s.world.pypi.lookup dep.key = none) :
    download_and_install_manylinux_version s dep = .error .registryError := by
  unfold download_and_install_manylinux_version
  cases hfc : s.world.fakeCache with
  | none => simp only [hfc, h]
  | some l => simp only [hfc, h]

/-- A version absent from the release listing reports not-found and leaves
the staging tree untouched. -/
theorem download_no_version (s : St) (dep : Dependency) (pd : PyPiData)
    (hpd : s.world.pypi.lookup dep.key = some pd)
    (hver : pd.releases.lookup dep.version = none) :
    ∃ s', download_and_install_manylinux_version s dep = .ok (false, s') ∧
      s'.tree = s.tree := by
  unfold download_and_install_manylinux_version
  cases hfc : s.world.fakeCache with
  | none =>
    refine ⟨⟨s.tree, { s.world with fakeCache := some [] }⟩, ?_, rfl⟩
    simp only [hfc, hpd, hver]
  | some l =>
    refine ⟨⟨s.tree, s.world⟩, ?_, rfl⟩
    simp only [hfc, hpd, hver]

/-- A release listing with no artifact URL ending in the platform-tag suffix
reports not-found and leaves the staging tree untouched. -/
theorem download_no_url (s : St) (dep : Dependency) (pd : PyPiData)
    (infos : List ReleaseInfo)
    (hpd : s.world.pypi.lookup dep.key = some pd)
    (hver : pd.releases.lookup dep.version = some infos)
    (hurl : infos.find? (fun info =>
      (_get_wheel_suffix RUNTIME).isSuffixOf info.url) = none) :
    ∃ s', download_and_install_manylinux_version s dep = .ok (false, s') ∧
      s'.tree = s.tree := by
  unfold download_and_install_manylinux_version
  cases hfc : s.world.fakeCache with
  | none =>
    refine ⟨⟨s.tree, { s.world with fakeCache := some [] }⟩, ?_, rfl⟩
    simp only [hfc, hpd, hver, hurl]
  | some l =>
    refine ⟨⟨s.tree, s.world⟩, ?_, rfl⟩
    simp only [hfc, hpd, hver, hurl]

/-- Claim C6: in the download strategy, a version absent from the release
list, or a release list with no artifact URL ending in the platform-tag
suffix, is the not-found outcome (the strategy reports `False`, the chain
moves on, the staging tree is untouched); a non-2xx metadata response is
instead the fatal registry error, and when it strikes, the whole
per-dependency chain aborts with that error — strategies 4 and 5 never run. -/
theorem download_strategy_spec (s : St) (dep : Dependency) :
    (s.world.pypi.lookup dep.key = none →
      download_and_install_manylinux_version s dep = .error .registryError) ∧
    (∀ pd, s.world.pypi.lookup dep.key = some pd →
      pd.releases.lookup dep.version = none →
      ∃ s', download_and_install_manylinux_version s dep = .ok (false, s') ∧
        s'.tree = s.tree) ∧
    (∀ pd infos, s.world.pypi.lookup dep.key = some pd →
      pd.releases.lookup dep.version = some infos →
      infos.find? (fun info =>
        (_get_wheel_suffix RUNTIME).isSuffixOf info.url) = none →
      ∃ s', download_and_install_manylinux_version s dep = .ok (false, s') ∧
        s'.tree = s.tree) ∧
    (∀ package s1 s2, ¬ dep.key = package →
      install_matching_precompiled_version s dep = .ok (false, s1) →
      install_manylinux_version s1 dep = .ok (false, s2) →
      s2.world.pypi.lookup dep.key = none →
      install_dependencies s package [dep] = .error .registryError) := by
  refine ⟨fun h => download_404 s dep h,
          fun pd hpd hver => download_no_version s dep pd hpd hver,
          fun pd infos hpd hver hurl => download_no_url s dep pd infos hpd hver hurl,
          ?_⟩
  intro package s1 s2 hne h1 h2 h3
  have hone : install_one s dep = .error .registryError := by
    unfold install_one
    simp only [h1, h2, download_404 s2 dep h3]
  unfold install_dependencies
  rw [if_neg hne, hone]

/-- C6 scenario: a dependency absent from the bundled store, both wheel
caches and the registry listing. -/
def c6Dep : Dependency :=
  { key := "bar".toList, version := "1.0".toList, location := "/missing".toList,
    egg_name := "bar-1.0".toList, requires := [] }

theorem download_strategy_spec_witness :
    install_matching_precompiled_version ⟨[], emptyWorld⟩ c6Dep =
      .ok (false, ⟨[], emptyWorld⟩) ∧
    install_manylinux_version ⟨[], emptyWorld⟩ c6Dep =
      .ok (false, ⟨[], emptyWorld⟩) ∧
    install_dependencies ⟨[], emptyWorld⟩ "root".toList [c6Dep] =
      .error .registryError :=
  ⟨by decide, by decide,
   (download_strategy_spec ⟨[], emptyWorld⟩ c6Dep).2.2.2 "root".toList
     ⟨[], emptyWorld⟩ ⟨[], emptyWorld⟩ (by decide) (by decide) (by decide)
     (by decide)⟩

/-- Run an ordered strategy list: the first strategy to report success stops
the chain (`some` state); an error aborts; `none` means every strategy
reported not-found. -/
def runChain : List (St → Dependency → Except Err (Bool × St)) → St → Dependency →
    Except Err (Option St)
  | [], _, _ => .ok none
  | f :: fs, s, dep =>
    match f s dep with
    | .error e => .error e
    | .ok (true, s') => .ok (some s')
    | .ok (false, s') => runChain fs s' dep

/-- The five acquisition strategies in the order of source lines 107-128. -/
def strategyChain : List (St → Dependency → Except Err (Bool × St)) :=
  [install_matching_precompiled_version, install_manylinux_version,
   download_and_install_manylinux_version, install_any_precompiled_version,
   install_local_package]

/-- The egg installer never reports not-found: it either succeeds or raises. -/
theorem install_local_package_from_egg_ok (s : St) (dep : Dependency)
    (r : Bool × St) (h : install_local_package_from_egg s dep = .ok r) :
    r.1 = true := by
  unfold install_local_package_from_egg at h
  split at h
  · simp at h
  · split at h
    · simp at h
    · injection h with h'
      subst h'
      rfl

/-- Strategy 5 (`install_local_package`) never reports not-found: every path
through it either returns `True` or raises. -/
theorem install_local_package_ok (s : St) (dep : Dependency) (r : Bool × St)
    (h : install_local_package s dep = .ok r) : r.1 = true := by
  unfold install_local_package at h
  dsimp only at h
  repeat' split at h
  all_goals
    first
      | exact install_local_package_from_egg_ok _ _ _ h
      | (injection h with h'
         subst h'
         rfl)
      | injection h

theorem runChain_cons_error (f : St → Dependency → Except Err (Bool × St))
    (fs : List (St → Dependency → Except Err (Bool × St))) (s : St)
    (dep : Dependency) (e : Err) (h : f s dep = .error e) :
    runChain (f :: fs) s dep = .error e := by
  unfold runChain
  rw [h]

theorem runChain_cons_true (f : St → Dependency → Except Err (Bool × St))
    (fs : List (St → Dependency → Except Err (Bool × St))) (s : St)
    (dep : Dependency) (s' : St) (h : f s dep = .ok (true, s')) :
    runChain (f :: fs) s dep = .ok (some s') := by
  unfold runChain
  rw [h]

theorem runChain_cons_false (f : St → Dependency → Except Err (Bool × St))
    (fs : List (St → Dependency → Except Err (Bool × St))) (s : St)
    (dep : Dependency) (s' : St) (h : f s dep = .ok (false, s')) :
    runChain (f :: fs) s dep = runChain fs s' dep := by
  show (match f s dep with
        | .error e => .error e
        | .ok (true, s') => .ok (some s')
        | .ok (false, s') => runChain fs s' dep) = runChain fs s' dep
  rw [h]


theorem runChain_strategy_ne_none (s : St) (dep : Dependency) :
    runChain strategyChain s dep ≠ .ok none := by
  intro hcontra
  simp only [strategyChain] at hcontra
  cases h1 : install_matching_precompiled_version s dep with
  | error e =>
    rw [runChain_cons_error _ _ _ _ _ h1] at hcontra
    exact Except.noConfusion hcontra
  | ok p1 =>
    obtain ⟨b1, s1⟩ := p1
    cases b1 with
    | true =>
      rw [runChain_cons_true _ _ _ _ _ h1] at hcontra
      injection hcontra with h'
      exact Option.noConfusion h'
    | false =>
      rw [runChain_cons_false _ _ _ _ _ h1] at hcontra
      cases h2 : install_manylinux_version s1 dep with
      | error e =>
        rw [runChain_cons_error _ _ _ _ _ h2] at hcontra
        exact Except.noConfusion hcontra
      | ok p2 =>
        obtain ⟨b2, s2⟩ := p2
        cases b2 with
        | true =>
          rw [runChain_cons_true _ _ _ _ _ h2] at hcontra
          injection hcontra with h'
          exact Option.noConfusion h'
        | false =>
          rw [runChain_cons_false _ _ _ _ _ h2] at hcontra
          cases h3 : download_and_install_manylinux_version s2 dep with
          | error e =>
            rw [runChain_cons_error _ _ _ _ _ h3] at hcontra
            exact Except.noConfusion hcontra
          | ok p3 =>
            obtain ⟨b3, s3⟩ := p3
            cases b3 with
            | true =>
              rw [runChain_cons_true _ _ _ _ _ h3] at hcontra
              injection hcontra with h'
              exact Option.noConfusion h'
            | false =>
              rw [runChain_cons_false _ _ _ _ _ h3] at hcontra
              cases h4 : install_any_precompiled_version s3 dep with
              | error e =>
                rw [runChain_cons_error _ _ _ _ _ h4] at hcontra
                exact Except.noConfusion hcontra
              | ok p4 =>
                obtain ⟨b4, s4⟩ := p4
                cases b4 with
                | true =>
                  rw [runChain_cons_true _ _ _ _ _ h4] at hcontra
                  injection hcontra with h'
                  exact Option.noConfusion h'
                | false =>
                  rw [runChain_cons_false _ _ _ _ _ h4] at hcontra
                  cases h5 : install_local_package s4 dep with
                  | error e =>
                    rw [runChain_cons_error _ _ _ _ _ h5] at hcontra
                    exact Except.noConfusion hcontra
                  | ok p5 =>
                    have hr := install_local_package_ok s4 dep p5 h5
                    obtain ⟨b5, s5⟩ := p5
                    subst hr
                    rw [runChain_cons_true _ _ _ _ _ h5] at hcontra
                    injection hcontra with h'
                    exact Option.noConfusion h'

/-- Claim C2, amended: per non-root dependency the five strategies run
strictly in the claimed order and the first success stops the chain
(`install_one` equals the generic first-success chain over
`strategyChain`); but strategy 5 never reports failure — it succeeds or
raises its own local-layout error — so the all-five-failed branch, the only
one that raises `NoSuitableArtifact(key, version)`, is unreachable. -/
theorem install_dependencies_chain_spec (s : St) (dep : Dependency) :
    (install_one s dep =
      match runChain strategyChain s dep with
      | .error e => .error e
      | .ok (some s') => .ok s'
      | .ok none => .error (.noSuitableArtifact dep.key dep.version)) ∧
    (∀ s2 r, install_local_package s2 dep = .ok r → r.1 = true) ∧
    (runChain strategyChain s dep ≠ .ok none) ∧
    (∀ package, ¬ dep.key = package →
      install_dependencies s package [dep] = install_one s dep) := by
  refine ⟨?_, fun s2 r h => install_local_package_ok s2 dep r h,
          runChain_strategy_ne_none s dep, ?_⟩
  · unfold install_one
    simp only [strategyChain]
    cases h1 : install_matching_precompiled_version s dep with
    | error e =>
      rw [runChain_cons_error _ _ _ _ _ h1]
    | ok p1 =>
      obtain ⟨b1, s1⟩ := p1
      cases b1 with
      | true => rw [runChain_cons_true _ _ _ _ _ h1]
      | false =>
        rw [runChain_cons_false _ _ _ _ _ h1]
        dsimp only
        cases h2 : install_manylinux_version s1 dep with
        | error e => rw [runChain_cons_error _ _ _ _ _ h2]
        | ok p2 =>
          obtain ⟨b2, s2⟩ := p2
          cases b2 with
          | true => rw [runChain_cons_true _ _ _ _ _ h2]
          | false =>
            rw [runChain_cons_false _ _ _ _ _ h2]
            dsimp only
            cases h3 : download_and_install_manylinux_version s2 dep with
            | error e => rw [runChain_cons_error _ _ _ _ _ h3]
            | ok p3 =>
              obtain ⟨b3, s3⟩ := p3
              cases b3 with
              | true => rw [runChain_cons_true _ _ _ _ _ h3]
              | false =>
                rw [runChain_cons_false _ _ _ _ _ h3]
                dsimp only
                cases h4 : install_any_precompiled_version s3 dep with
                | error e => rw [runChain_cons_error _ _ _ _ _ h4]
                | ok p4 =>
                  obtain ⟨b4, s4⟩ := p4
                  cases b4 with
                  | true => rw [runChain_cons_true _ _ _ _ _ h4]
                  | false =>
                    rw [runChain_cons_false _ _ _ _ _ h4]
                    dsimp only
                    cases h5 : install_local_package s4 dep with
                    | error e => rw [runChain_cons_error _ _ _ _ _ h5]
                    | ok p5 =>
                      obtain ⟨b5, s5⟩ := p5
                      cases b5 with
                      | true => rw [runChain_cons_true _ _ _ _ _ h5]
                      | false =>
                        rw [runChain_cons_false _ _ _ _ _ h5]
                        exact rfl
  · intro package hne
    unfold install_dependencies
    rw [if_neg hne]
    cases h : install_one s dep with
    | error e => rfl
    | ok s' => rfl

/-- C2 scenario: a dependency missing from the store and both caches, listed
by the registry with no releases, and with a nonexistent local location. -/
def c2Dep : Dependency :=
  { key := "ghost".toList, version := "9".toList, location := "/missing".toList,
    egg_name := "ghost-9".toList, requires := [] }

def c2World : World :=
  { emptyWorld with pypi := [("ghost".toList, ⟨[]⟩)] }

/-- Claim C2, counterexample: with every strategy missing, the run aborts
with the strategy-5 raise of line 343 ("Unable to install local package …,
neither a file nor a directory"), not with the `NoSuitableArtifact`-style
error of line 130 that names `key==version`. -/
theorem install_dependencies_no_nsa_counterexample :
    install_dependencies ⟨[], c2World⟩ "root".toList [c2Dep] =
      .error (.neitherFileNorDir "ghost".toList) := by
  decide

theorem install_dependencies_chain_spec_witness :
    (¬ c2Dep.key = "root".toList) ∧
    install_dependencies ⟨[], c2World⟩ "root".toList [c2Dep] =
      install_one ⟨[], c2World⟩ c2Dep ∧
    runChain strategyChain ⟨[], c2World⟩ c2Dep ≠ .ok none :=
  ⟨by decide,
   (install_dependencies_chain_spec ⟨[], c2World⟩ c2Dep).2.2.2 "root".toList
     (by decide),
   (install_dependencies_chain_spec ⟨[], c2World⟩ c2Dep).2.2.1⟩

/-- C4 counterexample scenario: a cached wheel whose archive contains a
member below `__pycache__`. -/
def c4Dep : Dependency :=
  { key := "foo".toList, version := "1.0".toList, location := "/nowhere".toList,
    egg_name := "foo-1.0".toList, requires := [] }

def c4World : World :=
  { emptyWorld with
    pipCache := some [("foo-1.0-cp36m-manylinux1_x86_64.whl".toList, "/c/foo.whl".toList)],
    zipArchives := [("/c/foo.whl".toList,
      [("foo/a.py".toList, "x".toList),
       ("__pycache__/junk.pyc".toList, "j".toList)])] }

def c4Result : St :=
  ⟨[(["__pycache__".toList, "junk.pyc".toList], "j".toList),
    (["foo".toList, "a.py".toList], "x".toList)], c4World⟩

/-- Claim C4, counterexample: the cached-wheel strategy extracts every
archive member with no ignore filtering — after it succeeds, the staging
tree holds a path whose string form matches the `__pycache__/*` glob of the
fixed ignore set. -/
theorem wheel_extract_ignores_nothing :
    install_manylinux_version ⟨[], c4World⟩ c4Dep = .ok (true, c4Result) ∧
    (["__pycache__".toList, "junk.pyc".toList], "j".toList) ∈ c4Result.tree ∧
    "__pycache__/*".toList ∈ IGNORED ∧
    fnmatch (pathStr ["__pycache__".toList, "junk.pyc".toList])
      "__pycache__/*".toList = true := by
  decide

theorem mem_writeFile {t : STree} {p : FPath} {c : Content} {e : FPath × Content}
    (h : e ∈ writeFile t p c) : e = (p, c) ∨ e ∈ t := by
  unfold writeFile at h
  rcases List.mem_cons.mp h with h' | h'
  · exact Or.inl h'
  · exact Or.inr (List.mem_filter.mp h').1

theorem mem_foldl_writeFile {α : Type} (f : α → FPath × Content) :
    ∀ (L : List α) (t : STree) (e : FPath × Content),
      e ∈ L.foldl (fun t x => writeFile t (f x).1 (f x).2) t →
      e ∈ t ∨ ∃ x ∈ L, e = f x := by
  intro L
  induction L with
  | nil => intro t e h; exact Or.inl h
  | cons x L ih =>
    intro t e h
    rcases ih _ e h with h' | ⟨y, hy, hey⟩
    · rcases mem_writeFile h' with h'' | h''
      · exact Or.inr ⟨x, List.mem_cons_self _ _, h''⟩
      · exact Or.inl h''
    · exact Or.inr ⟨y, List.mem_cons_of_mem _ hy, hey⟩

theorem any_fnmatch_false {n : PyStr}
    (h : IGNORED.any (fun ignored => fnmatch n ignored) = false) :
    ∀ pat ∈ IGNORED, fnmatch n pat = false := by
  intro pat hpat
  exact Bool.eq_false_iff.mpr (List.any_eq_false.mp h pat hpat)

theorem copytree_files_ignored (w : World) (src : PyStr) (x : FPath × Content)
    (h : x ∈ copytree_files w src) :
    ∀ comp ∈ x.1, ∀ pat ∈ IGNORED, fnmatch comp pat = false := by
  unfold copytree_files at h
  obtain ⟨a, ha, hfa⟩ := List.mem_filterMap.mp h
  dsimp only at hfa
  split at hfa
  · split at hfa
    · rename_i hall
      injection hfa with h'
      subst h'
      intro comp hcomp pat hpat
      have h1 := List.all_eq_true.mp hall comp hcomp
      have h2 := of_decide_eq_true h1
      exact Bool.eq_false_iff.mpr (List.any_eq_false.mp (Bool.eq_false_iff.mpr h2) pat hpat)
    · exact Option.noConfusion hfa
  · exact Option.noConfusion hfa

/-- Files staged by the directory-copy site: every added entry sits below
`folder` and has only ignore-free path components. -/
theorem mem_stageCopytree (w : World) (t : STree) (location folder : PyStr)
    (e : FPath × Content) (h : e ∈ stageCopytree w t location folder) :
    e ∈ t ∨ ∃ rel c, e = (folder :: rel, c) ∧
      ∀ comp ∈ rel, ∀ pat ∈ IGNORED, fnmatch comp pat = false := by
  unfold stageCopytree at h
  rcases mem_foldl_writeFile (fun (x : FPath × Content) => (folder :: x.1, x.2)) _ _ _ h
    with h' | ⟨x, hx, hex⟩
  · exact Or.inl h'
  · exact Or.inr ⟨x.1, x.2, hex, copytree_files_ignored w _ x hx⟩

theorem egg_step_mem (maybe acc : List PyStr) (m n : PyStr)
    (h : n ∈ egg_step maybe acc m) :
    n ∈ acc ∨ (n = m ∧ IGNORED.any (fun ignored => fnmatch m ignored) = false) := by
  unfold egg_step at h
  split at h
  · exact Or.inl h
  · rename_i hig
    have hig' : IGNORED.any (fun ignored => fnmatch m ignored) = false :=
      Bool.eq_false_iff.mpr hig
    dsimp only at h
    split at h <;> split at h <;>
      (try simp only [List.mem_append, List.mem_singleton] at h) <;> tauto

theorem egg_fold_not_ignored (maybe : List PyStr) :
    ∀ (iter acc : List PyStr) (n : PyStr),
      n ∈ iter.foldl (egg_step maybe) acc →
      n ∈ acc ∨ IGNORED.any (fun ignored => fnmatch n ignored) = false := by
  intro iter
  induction iter with
  | nil => intro acc n h; exact Or.inl h
  | cons m iter ih =>
    intro acc n h
    rcases ih _ n h with h' | h'
    · rcases egg_step_mem maybe acc m n h' with h'' | ⟨rfl, hig⟩
      · exact Or.inl h''
      · exact Or.inr hig
    · exact Or.inr h'

theorem mem_foldl_extract (members : List (PyStr × Content)) (folder : PyStr) :
    ∀ (names : List PyStr) (t : STree) (e : FPath × Content),
      e ∈ names.foldl (fun t n =>
        match members.lookup n with
        | some c => writeFile t (folder :: splitPath n) c
        | none => t) t →
      e ∈ t ∨ ∃ n ∈ names, ∃ c, e = (folder :: splitPath n, c) := by
  intro names
  induction names with
  | nil => intro t e h; exact Or.inl h
  | cons n names ih =>
    intro t e h
    rcases ih _ e h with h' | ⟨n', hn', c, hec⟩
    · dsimp only at h'
      cases hm : List.lookup n members with
      | none =>
        rw [hm] at h'
        exact Or.inl h'
      | some c =>
        rw [hm] at h'
        dsimp only at h'
        rcases mem_writeFile h' with h'' | h''
        · exact Or.inr ⟨n, List.mem_cons_self _ _, c, h''⟩
        · exact Or.inl h''
    · exact Or.inr ⟨n', List.mem_cons_of_mem _ hn', c, hec⟩

/-- Files staged by one top-level name of the legacy-bundle extract site:
every added entry comes from a selected member whose name matches no ignore
pattern. -/
theorem mem_egg_install_folder (members : List (PyStr × Content)) (t : STree)
    (folder : PyStr) (e : FPath × Content)
    (h : e ∈ egg_install_folder members t folder) :
    e ∈ t ∨ ∃ n c, e = (folder :: splitPath n, c) ∧
      IGNORED.any (fun ignored => fnmatch n ignored) = false := by
  unfold egg_install_folder at h
  dsimp only at h
  rcases mem_foldl_extract members folder _ _ _ h with h' | ⟨n, hn, c, hec⟩
  · exact Or.inl h'
  · rcases egg_fold_not_ignored _ _ _ _ hn with h'' | h''
    · exact absurd h'' (List.not_mem_nil n)
    · exact Or.inr ⟨n, c, hec, h''⟩

theorem mem_egg_folders_fold (members : List (PyStr × Content)) :
    ∀ (folders : List PyStr) (t : STree) (e : FPath × Content),
      e ∈ folders.foldl (egg_install_folder members) t →
      e ∈ t ∨ ∃ folder n c, e = (folder :: splitPath n, c) ∧
        IGNORED.any (fun ignored => fnmatch n ignored) = false := by
  intro folders
  induction folders with
  | nil => intro t e h; exact Or.inl h
  | cons folder folders ih =>
    intro t e h
    rcases ih _ e h with h' | h'
    · rcases mem_egg_install_folder members t folder e h' with h'' | ⟨n, c, hec, hig⟩
      · exact Or.inl h''
      · exact Or.inr ⟨folder, n, c, hec, hig⟩
    · exact Or.inr h'

/-- Claim C4, amended: ignore filtering holds at the two sites that apply it
— a directory copy stages only files all of whose path components fail every
ignore glob, and a legacy-bundle extract stages only members whose names fail
every ignore glob — while the bundled-store tar extract (unreachable, see
the strategy-1 defect) and the wheel extracts apply no filtering at all. -/
theorem ignore_filter_spec (w : World) (t : STree) (location folder : PyStr)
    (s : St) (dep : Dependency) (b : Bool) (s' : St)
    (hegg : install_local_package_from_egg s dep = .ok (b, s')) :
    (∀ e ∈ stageCopytree w t location folder,
      e ∈ t ∨ ∃ rel c, e = (folder :: rel, c) ∧
        ∀ comp ∈ rel, ∀ pat ∈ IGNORED, fnmatch comp pat = false) ∧
    (∀ e ∈ s'.tree, e ∈ s.tree ∨ ∃ folder2 n c, e = (folder2 :: splitPath n, c) ∧
      ∀ pat ∈ IGNORED, fnmatch n pat = false) := by
  constructor
  · intro e he
    exact mem_stageCopytree w t location folder e he
  · unfold install_local_package_from_egg at hegg
    split at hegg
    · exact Except.noConfusion hegg
    · split at hegg
      · exact Except.noConfusion hegg
      · injection hegg with h'
        have h2 := congrArg Prod.snd h'
        dsimp only at h2
        intro e he
        rw [← h2] at he
        dsimp only at he
        rcases mem_egg_folders_fold _ _ _ _ he with h3 | ⟨folder2, n, c, hec, hig⟩
        · exact Or.inl h3
        · exact Or.inr ⟨folder2, n, c, hec, any_fnmatch_false hig⟩

/-- C4 witness scenario: an egg owning `data` with one non-source member. -/
def c4EggDep : Dependency :=
  { key := "data".toList, version := "1.0".toList,
    location := "/site/data-1.0.egg".toList, egg_name := "data-1.0".toList,
    requires := [] }

def c4EggWorld : World :=
  { emptyWorld with
    fsFiles := [("/site/data-1.0.egg".toList, [])],
    zipArchives := [("/site/data-1.0.egg".toList,
      [("EGG-INFO/top_level.txt".toList, "data\n".toList),
       ("data/info.txt".toList, "I".toList)])] }

def c4EggResult : St :=
  ⟨[(["data".toList, "data".toList, "info.txt".toList], "I".toList)], c4EggWorld⟩

theorem ignore_filter_spec_witness :
    (∀ e ∈ stageCopytree emptyWorld [] "/proj".toList "app".toList,
      e ∈ ([] : STree) ∨ ∃ rel c, e = ("app".toList :: rel, c) ∧
        ∀ comp ∈ rel, ∀ pat ∈ IGNORED, fnmatch comp pat = false) ∧
    (∀ e ∈ c4EggResult.tree, e ∈ ([] : STree) ∨ ∃ folder2 n c,
      e = (folder2 :: splitPath n, c) ∧ ∀ pat ∈ IGNORED, fnmatch n pat = false) :=
  ignore_filter_spec emptyWorld [] "/proj".toList "app".toList ⟨[], c4EggWorld⟩
    c4EggDep true c4EggResult (by decide)
